import Mathlib

/-!
Verification of the FinFlow portfolio tracker against its natural-language
specification.  The development shallowly embeds the parts of the code the
claims touch: the data model (finflow/core/models.py), the REST viewsets
(finflow/core/views.py), the serializers (finflow/core/serializers.py), the
WebSocket consumer (finflow/core/consumers.py), the Celery tasks
(finflow/core/tasks.py) and the beat schedule (finflow/celery.py).

Modelling conventions: primary keys are naturals; Django DecimalField values
are rationals (decimal arithmetic is exact); datetimes are integer Unix
timestamps in seconds; the database is four lists of rows.
-/

namespace FinFlow

/-- Primary keys of all models. -/
abbrev Id := Nat

/-- Embeds core.models.User, keeping only the fields the claims mention. -/
structure User where
  id : Id
  username : String
  is_active : Bool
deriving DecidableEq, Repr

/-- Embeds core.models.Portfolio.  created_at is a Unix timestamp. -/
structure Portfolio where
  id : Id
  user : Id
  name : String
  description : String
  is_active : Bool
  created_at : Int
deriving DecidableEq, Repr

/-- Embeds core.models.Investment.  quantity (6 decimal places) and
purchase_price (2 decimal places) are exact decimals, modelled as rationals. -/
structure Investment where
  id : Id
  portfolio : Id
  symbol : String
  quantity : ℚ
  purchase_price : ℚ
  purchase_date : Int
deriving DecidableEq, Repr

/-- Embeds core.models.Transaction, keeping the fields the claims mention. -/
structure Transaction where
  id : Id
  investment : Id
  transaction_type : String
  amount : ℚ
deriving DecidableEq, Repr

/-- The relational store backing the four models. -/
structure DB where
  users : List User
  portfolios : List Portfolio
  investments : List Investment
  transactions : List Transaction
deriving DecidableEq, Repr

/-! Querysets of the three viewsets (views.py).  Each get_queryset restricts
to rows owned (directly or through the foreign-key joins portfolio__user and
investment__portfolio__user) by the requesting user. -/

/-- Embeds PortfolioViewSet.get_queryset: Portfolio.objects.filter(user=request.user). -/
def portfolio_get_queryset (db : DB) (u : Id) : List Portfolio :=
  db.portfolios.filter (fun p => p.user == u)

/-- The join portfolio__user=u for an investment row: some portfolio row has
the investment's foreign key as id and u as owner. -/
def investmentOwnedBy (db : DB) (i : Investment) (u : Id) : Bool :=
  db.portfolios.any (fun p => p.id == i.portfolio && p.user == u)

/-- Embeds InvestmentViewSet.get_queryset:
Investment.objects.filter(portfolio__user=request.user). -/
def investment_get_queryset (db : DB) (u : Id) : List Investment :=
  db.investments.filter (fun i => investmentOwnedBy db i u)

/-- The join investment__portfolio__user=u for a transaction row. -/
def transactionOwnedBy (db : DB) (t : Transaction) (u : Id) : Bool :=
  db.investments.any (fun i => i.id == t.investment && investmentOwnedBy db i u)

/-- Embeds TransactionViewSet.get_queryset:
Transaction.objects.filter(investment__portfolio__user=request.user). -/
def transaction_get_queryset (db : DB) (u : Id) : List Transaction :=
  db.transactions.filter (fun t => transactionOwnedBy db t u)

/-- Outcome of a detail-route REST request.  DRF's get_object raises Http404
(rendered as a not-found response) when the pk is not in the queryset. -/
inductive RestResult (α : Type) where
  | ok : α → RestResult α
  | notFound : RestResult α
deriving DecidableEq, Repr

/-! Cascade deletion (models.py).  Investment.portfolio and
Transaction.investment both carry on_delete=CASCADE, as do Portfolio.user and
the other user-facing foreign keys, so deleting a portfolio removes its
investments and their transactions, and deleting a user removes the user's
portfolios and their contents. -/

/-- Deleting portfolio pid: the portfolio row goes, every investment whose
portfolio foreign key is pid goes, and every transaction whose investment is
one of those goes.  Everything else stays. -/
def deletePortfolioCascade (db : DB) (pid : Id) : DB :=
  { users := db.users
    portfolios := db.portfolios.filter (fun p => p.id != pid)
    investments := db.investments.filter (fun i => i.portfolio != pid)
    transactions := db.transactions.filter (fun t =>
      !(db.investments.any (fun i => i.id == t.investment && i.portfolio == pid))) }

/-- Deleting user uid cascades through portfolios to investments and
transactions. -/
def deleteUserCascade (db : DB) (uid : Id) : DB :=
  { users := db.users.filter (fun w => w.id != uid)
    portfolios := db.portfolios.filter (fun p => p.user != uid)
    investments := db.investments.filter (fun i =>
      !(db.portfolios.any (fun p => p.id == i.portfolio && p.user == uid)))
    transactions := db.transactions.filter (fun t =>
      !(db.investments.any (fun i => i.id == t.investment &&
        db.portfolios.any (fun p => p.id == i.portfolio && p.user == uid)))) }

/-! Detail routes of the three viewsets.  ModelViewSet dispatches retrieve,
update and destroy through get_object, which looks the pk up inside
get_queryset and answers not-found when it is absent; on success update
rewrites the row and destroy deletes the instance (with cascade). -/

/-- Embeds retrieve on PortfolioViewSet. -/
def portfolio_retrieve (db : DB) (u pk : Id) : RestResult Portfolio :=
  match (portfolio_get_queryset db u).find? (fun p => p.id == pk) with
  | some p => .ok p
  | none => .notFound

/-- Embeds update on PortfolioViewSet: write the new name, description and
active flag onto the row when it is in the user's queryset. -/
def portfolio_update (db : DB) (u pk : Id) (name description : String)
    (is_active : Bool) : RestResult Portfolio × DB :=
  match (portfolio_get_queryset db u).find? (fun p => p.id == pk) with
  | some p =>
      let p' : Portfolio := { p with name := name, description := description,
                                     is_active := is_active }
      (.ok p', { db with portfolios := db.portfolios.map (fun q =>
        if q.id == pk then { q with name := name, description := description,
                                    is_active := is_active } else q) })
  | none => (.notFound, db)

/-- Embeds destroy on PortfolioViewSet: instance.delete() cascades. -/
def portfolio_destroy (db : DB) (u pk : Id) : RestResult Unit × DB :=
  match (portfolio_get_queryset db u).find? (fun p => p.id == pk) with
  | some _ => (.ok (), deletePortfolioCascade db pk)
  | none => (.notFound, db)

/-- Embeds retrieve on InvestmentViewSet. -/
def investment_retrieve (db : DB) (u pk : Id) : RestResult Investment :=
  match (investment_get_queryset db u).find? (fun i => i.id == pk) with
  | some i => .ok i
  | none => .notFound

/-- Embeds update on InvestmentViewSet (writing the mutable serializer
fields symbol, quantity, purchase_price). -/
def investment_update (db : DB) (u pk : Id) (symbol : String)
    (quantity purchase_price : ℚ) : RestResult Investment × DB :=
  match (investment_get_queryset db u).find? (fun i => i.id == pk) with
  | some i =>
      (.ok { i with symbol := symbol, quantity := quantity,
                    purchase_price := purchase_price },
       { db with investments := db.investments.map (fun j =>
          if j.id == pk then { j with symbol := symbol, quantity := quantity,
                                      purchase_price := purchase_price } else j) })
  | none => (.notFound, db)

/-- Embeds destroy on InvestmentViewSet: deleting an investment cascades to
its transactions. -/
def investment_destroy (db : DB) (u pk : Id) : RestResult Unit × DB :=
  match (investment_get_queryset db u).find? (fun i => i.id == pk) with
  | some _ =>
      (.ok (), { db with
        investments := db.investments.filter (fun i => i.id != pk)
        transactions := db.transactions.filter (fun t => t.investment != pk) })
  | none => (.notFound, db)

/-- Embeds retrieve on TransactionViewSet. -/
def transaction_retrieve (db : DB) (u pk : Id) : RestResult Transaction :=
  match (transaction_get_queryset db u).find? (fun t => t.id == pk) with
  | some t => .ok t
  | none => .notFound

/-- Embeds update on TransactionViewSet (writing the mutable serializer
fields transaction_type and amount). -/
def transaction_update (db : DB) (u pk : Id) (transaction_type : String)
    (amount : ℚ) : RestResult Transaction × DB :=
  match (transaction_get_queryset db u).find? (fun t => t.id == pk) with
  | some t =>
      (.ok { t with transaction_type := transaction_type, amount := amount },
       { db with transactions := db.transactions.map (fun s =>
          if s.id == pk then { s with transaction_type := transaction_type,
                                      amount := amount } else s) })
  | none => (.notFound, db)

/-- Embeds destroy on TransactionViewSet. -/
def transaction_destroy (db : DB) (u pk : Id) : RestResult Unit × DB :=
  match (transaction_get_queryset db u).find? (fun t => t.id == pk) with
  | some _ =>
      (.ok (), { db with transactions := db.transactions.filter (fun t => t.id != pk) })
  | none => (.notFound, db)

/-! Uniqueness constraints (models.py Meta.constraints).  The database
enforces UniqueConstraint(fields=[user, name], name=unique_user_portfolio_name)
and UniqueConstraint(fields=[portfolio, symbol], name=unique_portfolio_symbol):
an INSERT is rejected when a row with the same key pair exists, and an UPDATE
of a row is rejected when a different row (another pk) holds the same pair. -/

/-- No two Portfolio rows of one user share a name: any two rows agreeing on
(user, name) are the same row. -/
def uniqueUserPortfolioName (ps : List Portfolio) : Prop :=
  ∀ a ∈ ps, ∀ b ∈ ps, a.user = b.user → a.name = b.name → a.id = b.id

/-- No two Investment rows in one portfolio share a symbol. -/
def uniquePortfolioSymbol (is : List Investment) : Prop :=
  ∀ a ∈ is, ∀ b ∈ is, a.portfolio = b.portfolio → a.symbol = b.symbol → a.id = b.id

/-- INSERT of a portfolio row under unique_user_portfolio_name. -/
def insertPortfolio (db : DB) (row : Portfolio) : Except String DB :=
  if db.portfolios.any (fun q => q.user == row.user && q.name == row.name) then
    .error "unique_user_portfolio_name"
  else
    .ok { db with portfolios := row :: db.portfolios }

/-- UPDATE of portfolio pk's name under unique_user_portfolio_name: rejected
when another row (id different from pk) of the same user holds the new name. -/
def updatePortfolioName (db : DB) (pk : Id) (newName : String) : Except String DB :=
  match db.portfolios.find? (fun q => q.id == pk) with
  | none => .error "does not exist"
  | some p =>
    if db.portfolios.any (fun q => q.id != pk && q.user == p.user && q.name == newName) then
      .error "unique_user_portfolio_name"
    else
      .ok { db with portfolios := db.portfolios.map (fun q =>
        if q.id == pk then { q with name := newName } else q) }

/-- INSERT of an investment row under unique_portfolio_symbol. -/
def insertInvestment (db : DB) (row : Investment) : Except String DB :=
  if db.investments.any (fun q => q.portfolio == row.portfolio && q.symbol == row.symbol) then
    .error "unique_portfolio_symbol"
  else
    .ok { db with investments := row :: db.investments }

/-- UPDATE of investment pk's symbol under unique_portfolio_symbol. -/
def updateInvestmentSymbol (db : DB) (pk : Id) (newSymbol : String) : Except String DB :=
  match db.investments.find? (fun q => q.id == pk) with
  | none => .error "does not exist"
  | some i =>
    if db.investments.any (fun q =>
        q.id != pk && q.portfolio == i.portfolio && q.symbol == newSymbol) then
      .error "unique_portfolio_symbol"
    else
      .ok { db with investments := db.investments.map (fun q =>
        if q.id == pk then { q with symbol := newSymbol } else q) }

/-! Computed read-only properties (models.py).  Python's timedelta.days is
floor division of the elapsed seconds by 86400; for the positive divisor
86400 Lean's Int division (Euclidean) agrees with Python's floor division. -/

/-- days of a Python timedelta of delta seconds. -/
def timedeltaDays (delta : Int) : Int := delta / 86400

/-- Embeds Portfolio.age_days: (timezone.now() - self.created_at).days. -/
def age_days (now : Int) (p : Portfolio) : Int := timedeltaDays (now - p.created_at)

/-- Embeds Investment.total_value: self.quantity * self.purchase_price. -/
def total_value (i : Investment) : ℚ := i.quantity * i.purchase_price

/-- Embeds Investment.days_held: (timezone.now() - self.purchase_date).days. -/
def days_held (now : Int) (i : Investment) : Int := timedeltaDays (now - i.purchase_date)

/-! The WebSocket consumer (consumers.py).  A JSON message is a flat list of
key/value pairs; values only matter as far as the claims inspect them, so a
value is either a string or an opaque nested payload. -/

/-- Value of one field of an emitted JSON message. -/
inductive JVal where
  | s : String → JVal
  | payload : JVal
deriving DecidableEq, Repr

/-- An emitted JSON message: its fields in order. -/
abbrev Msg := List (String × JVal)

/-- Whether message m carries field k. -/
def hasKey (m : Msg) (k : String) : Bool := m.any (fun kv => kv.1 == k)

/-- The message PortfolioConsumer.connect sends after accepting: type,
message, timestamp, user.  ts is datetime.now().isoformat(), user the
username or anonymous. -/
def connectMsg (ts user : String) : Msg :=
  [("type", .s "connection_established"),
   ("message", .s "Connected to portfolio price feed"),
   ("timestamp", .s ts),
   ("user", .s user)]

/-- What PortfolioConsumer.receive gets from the client: either text that is
not JSON, or a parsed object whose type field is the given string (an absent
type reads as the empty string via .get). -/
inductive ClientMsg where
  | invalidJson : ClientMsg
  | typed : String → ClientMsg
deriving DecidableEq, Repr

/-- The messages PortfolioConsumer.receive sends back for one client message.
get_portfolio_data answers with a portfolio_data message; start_updates and
stop_updates only toggle the update task and send nothing directly; an
unrecognised type sends nothing; invalid JSON draws an error message of two
fields. -/
def receiveReply (ts : String) (m : ClientMsg) : List Msg :=
  match m with
  | .invalidJson => [[("type", .s "error"), ("message", .s "Invalid JSON format")]]
  | .typed t =>
    if t == "get_portfolio_data" then
      [[("type", .s "portfolio_data"), ("data", .payload), ("timestamp", .s ts)]]
    else []

/-- The message one iteration of PortfolioConsumer.price_update_loop sends. -/
def loopMsg (ts : String) : Msg :=
  [("type", .s "price_update"), ("data", .payload), ("timestamp", .s ts)]

/-! Celery tasks (tasks.py).  Each periodic task wraps its body in
try/except; the claims only depend on what the except arm does, so a task is
a function of whether its body raises. -/

/-- How a Celery task ends when its body raises or returns. -/
inductive TaskOutcome where
  | ok : TaskOutcome
  | retry (countdown : Nat) (maxRetries : Nat) : TaskOutcome
  | errorValue : TaskOutcome
deriving DecidableEq, Repr

/-- Embeds refresh_portfolio_analytics: the except arm raises
self.retry(exc=e, countdown=300, max_retries=3). -/
def refresh_portfolio_analytics (bodyRaises : Bool) : TaskOutcome :=
  if bodyRaises then .retry 300 3 else .ok

/-- Embeds cleanup_old_logs: the except arm raises
self.retry(exc=e, countdown=600, max_retries=2). -/
def cleanup_old_logs (bodyRaises : Bool) : TaskOutcome :=
  if bodyRaises then .retry 600 2 else .ok

/-- Embeds health_check: the except arm logs and returns an error payload,
it does not call self.retry. -/
def health_check (bodyRaises : Bool) : TaskOutcome :=
  if bodyRaises then .errorValue else .ok

/-- Embeds send_portfolio_notifications: the except arm raises
self.retry(exc=e, countdown=300, max_retries=2). -/
def send_portfolio_notifications (bodyRaises : Bool) : TaskOutcome :=
  if bodyRaises then .retry 300 2 else .ok

/-! The price-update loop (consumers.py).  random.uniform(lo, hi) is
modelled as lo + (hi - lo) * r with a sample r from the unit interval, and
Python's round(x, 2) as rounding x * 100 to the nearest integer over 100
(the tie-breaking direction never matters to the claims). -/

/-- random.uniform(lo, hi) at unit sample r. -/
def uniform (lo hi r : ℚ) : ℚ := lo + (hi - lo) * r

/-- round(x, 2). -/
def round2 (q : ℚ) : ℚ := ((round (q * 100) : ℤ) : ℚ) / 100

/-- One entry of the investments list of the mock data. -/
structure MockInvestment where
  symbol : String
  name : String
  current_price : ℚ
  change : ℚ
  change_percent : ℚ
  quantity : Nat
  value : ℚ
deriving DecidableEq, Repr

/-- The dictionary generate_mock_price_data returns. -/
structure MockPriceData where
  portfolio_id : String
  portfolio_name : String
  total_value : ℚ
  total_change : ℚ
  total_change_percent : ℚ
  investments : List MockInvestment
deriving DecidableEq, Repr

/-- Embeds PortfolioConsumer.generate_mock_price_data, drawing its fifteen
uniform samples from the stream r in source order. -/
def generate_mock_price_data (r : Nat → ℚ) : MockPriceData :=
  { portfolio_id := "sample"
    portfolio_name := "Sample Portfolio"
    total_value := round2 (uniform 45000 55000 (r 0))
    total_change := round2 (uniform (-500) 500 (r 1))
    total_change_percent := round2 (uniform (-2) 2 (r 2))
    investments :=
      [{ symbol := "AAPL", name := "Apple Inc."
         current_price := round2 (uniform 150 200 (r 3))
         change := round2 (uniform (-5) 5 (r 4))
         change_percent := round2 (uniform (-3) 3 (r 5))
         quantity := 100
         value := round2 (uniform 15000 20000 (r 6)) },
       { symbol := "MSFT", name := "Microsoft Corporation"
         current_price := round2 (uniform 300 400 (r 7))
         change := round2 (uniform (-8) 8 (r 8))
         change_percent := round2 (uniform (-2) 2 (r 9))
         quantity := 50
         value := round2 (uniform 15000 20000 (r 10)) },
       { symbol := "GOOGL", name := "Alphabet Inc."
         current_price := round2 (uniform 120 150 (r 11))
         change := round2 (uniform (-3) 3 (r 12))
         change_percent := round2 (uniform (-2) 2 (r 13))
         quantity := 75
         value := round2 (uniform 9000 11250 (r 14)) }] }

/-- Observable step of the loop body: sending one price_update message or
awaiting asyncio.sleep of so many seconds. -/
inductive LoopEvent where
  | emit : MockPriceData → LoopEvent
  | sleep : Nat → LoopEvent
deriving DecidableEq, Repr

/-- Embeds PortfolioConsumer.price_update_loop observed for k iterations
before cancellation: each iteration generates mock data (iteration i draws
from the stream r i), sends it, then sleeps 5 seconds. -/
def price_update_loop (r : Nat → Nat → ℚ) : Nat → List LoopEvent
  | 0 => []
  | Nat.succ k =>
      LoopEvent.emit (generate_mock_price_data (r 0)) :: LoopEvent.sleep 5 ::
        price_update_loop (fun i => r (i + 1)) k

/-! The beat schedule and task routes (finflow/celery.py). -/

/-- A beat-schedule entry's schedule value: celery.schedules.crontab with the
given minute and hour restrictions, or a plain interval in seconds. -/
inductive Sched where
  | crontab (minute : Option Nat) (hour : Option Nat)
  | seconds (n : Nat)
deriving DecidableEq, Repr

/-- One entry of app.conf.beat_schedule. -/
structure BeatEntry where
  task : String
  schedule : Sched
  queue : String
  priority : Nat
deriving DecidableEq, Repr

/-- Embeds app.conf.beat_schedule. -/
def beat_schedule : List (String × BeatEntry) :=
  [("refresh-portfolio-analytics",
    { task := "finflow.core.tasks.refresh_portfolio_analytics"
      schedule := .crontab (some 0) none, queue := "analytics", priority := 5 }),
   ("cleanup-old-logs",
    { task := "finflow.core.tasks.cleanup_old_logs"
      schedule := .crontab (some 0) (some 2), queue := "maintenance", priority := 3 }),
   ("health-check",
    { task := "finflow.core.tasks.health_check"
      schedule := .seconds 60, queue := "monitoring", priority := 1 })]

/-- Embeds app.conf.task_routes in declaration order. -/
def task_routes : List (String × String) :=
  [("finflow.core.tasks.refresh_portfolio_analytics", "analytics"),
   ("finflow.core.tasks.cleanup_old_logs", "maintenance"),
   ("finflow.core.tasks.health_check", "monitoring"),
   ("finflow.core.tasks.*", "default")]

/-- Whether string s starts with pre, computed on the character lists so
that proofs can evaluate it. -/
def startsWithStr (s pre : String) : Bool := pre.data.isPrefixOf s.data

/-- Celery route patterns: a glob ending in an asterisk matches by its stem,
anything else matches exactly. -/
def patternMatches (pat name : String) : Bool :=
  if pat.data.getLast? == some '*' then pat.data.dropLast.isPrefixOf name.data
  else pat == name

/-- Queue a task name is routed to: the first matching route wins. -/
def routeFor (name : String) : Option String :=
  (task_routes.find? (fun kv => patternMatches kv.1 name)).map (fun kv => kv.2)

/-! Investment validation at the API (serializers.py, views.py).  DRF runs
every field validator of InvestmentSerializer; add_investment answers 201 and
saves on success and 400 without saving when any validator fails. -/

/-- Python str.strip, computed on the character list: drop whitespace from
both ends. -/
def strip (s : String) : String :=
  ⟨((s.data.dropWhile Char.isWhitespace).reverse.dropWhile
      Char.isWhitespace).reverse⟩

/-- Python str.upper on the character list. -/
def upper (s : String) : String := ⟨s.data.map Char.toUpper⟩

/-- Embeds InvestmentSerializer.validate_symbol.  The source condition
(not value or len(value.strip()) == 0) is equivalent to the strip being
empty, the empty string included. -/
def validate_symbol (value : String) : Except String String :=
  if (strip value).length == 0 then .error "Symbol cannot be empty."
  else .ok (upper (strip value))

/-- Embeds InvestmentSerializer.validate_quantity. -/
def validate_quantity (value : ℚ) : Except String ℚ :=
  if value ≤ 0 then .error "Quantity must be positive." else .ok value

/-- Embeds InvestmentSerializer.validate_purchase_price. -/
def validate_purchase_price (value : ℚ) : Except String ℚ :=
  if value ≤ 0 then .error "Purchase price must be positive." else .ok value

/-- Writable payload of an investment-creation request.  portfolio is the
serializer's required related field; none models a payload without it. -/
structure InvestmentPayload where
  portfolio : Option Id
  symbol : String
  quantity : ℚ
  purchase_price : ℚ
  purchase_date : Int
deriving DecidableEq, Repr

/-- DRF DecimalField precision validation for
DecimalField(max_digits, decimal_places): at most decimal_places fractional
digits, which for a reduced rational means its denominator divides
10^decimal_places, and at most max_digits - decimal_places whole digits,
which cross-multiplied is num below 10^(max_digits - decimal_places) times
den in absolute value. -/
def decimal_valid (max_digits decimal_places : Nat) (q : ℚ) : Bool :=
  ((10 ^ decimal_places) % q.den == 0) &&
    decide (q.num.natAbs < 10 ^ (max_digits - decimal_places) * q.den)

/-- Embeds InvestmentSerializer.is_valid over the payload: DRF's per-field
validation first (the required portfolio PrimaryKeyRelatedField must name an
existing portfolio, the trimmed symbol must fit CharField max_length=20, the
decimals must fit max_digits 15/6 and 10/2), then the three validate_* hooks;
the accepted symbol is the transformed one.  DRF collects errors across
fields; this chain reports one of them, which agrees on accept versus
reject. -/
def investmentSerializer_validate (db : DB) (p : InvestmentPayload) :
    Except String InvestmentPayload :=
  match p.portfolio with
  | none => .error "This field is required."
  | some pid =>
    if !(db.portfolios.any (fun q => q.id == pid)) then
      .error "Invalid pk - object does not exist."
    else if 20 < (strip p.symbol).length then
      .error "Ensure this field has no more than 20 characters."
    else if !(decimal_valid 15 6 p.quantity) then
      .error "Ensure that there are no more than 15 digits in total."
    else if !(decimal_valid 10 2 p.purchase_price) then
      .error "Ensure that there are no more than 10 digits in total."
    else
      match validate_symbol p.symbol, validate_quantity p.quantity,
            validate_purchase_price p.purchase_price with
      | .ok s, .ok q, .ok pr =>
          .ok { p with symbol := s, quantity := q, purchase_price := pr }
      | .error e, _, _ => .error e
      | _, .error e, _ => .error e
      | _, _, .error e => .error e

/-- Embeds PortfolioViewSet.add_investment: validate, then either save the
new row with HTTP 201 or answer HTTP 400 leaving the database untouched.
serializer.save(portfolio=portfolio) stores the URL's portfolio pid. -/
def add_investment (db : DB) (pid nextId : Id) (p : InvestmentPayload) :
    Nat × DB :=
  match investmentSerializer_validate db p with
  | .ok v =>
      (201, { db with investments := db.investments ++
        [{ id := nextId, portfolio := pid, symbol := v.symbol,
           quantity := v.quantity, purchase_price := v.purchase_price,
           purchase_date := v.purchase_date }] })
  | .error _ => (400, db)

/-! Per-connection update-task state (consumers.py).  The consumer holds at
most one handle self.update_task; asyncio.create_task is the only way a loop
starts.  liveLoops counts loop tasks currently executing, so the semantics of
create_task is liveLoops + 1 and a cancel or a natural end is liveLoops - 1. -/

/-- Status of the task behind self.update_task. -/
inductive TaskState where
  | running
  | finished
deriving DecidableEq, Repr

/-- Per-connection state: the update_task attribute (none before the first
create_task, mirroring hasattr) and how many loop tasks are live. -/
structure ConnState where
  update_task : Option TaskState
  liveLoops : Nat
deriving DecidableEq, Repr

/-- State of a connection before connect runs. -/
def connInit : ConnState := { update_task := none, liveLoops := 0 }

/-- Embeds PortfolioConsumer.start_price_updates: when the attribute exists
and the task is not done it returns at once; otherwise it creates the task. -/
def start_price_updates (s : ConnState) : ConnState :=
  match s.update_task with
  | some TaskState.running => s
  | _ => { update_task := some TaskState.running, liveLoops := s.liveLoops + 1 }

/-- Embeds PortfolioConsumer.stop_price_updates: cancel the task and await
it; a task that was still running stops. -/
def stop_price_updates (s : ConnState) : ConnState :=
  match s.update_task with
  | some TaskState.running =>
      { update_task := some TaskState.finished, liveLoops := s.liveLoops - 1 }
  | _ => s

/-- Events that touch the update task over a connection's lifetime. -/
inductive ConnOp where
  | startUpdates
  | stopUpdates
  | loopEnded
deriving DecidableEq, Repr

/-- One step of the connection: connect and the start_updates message call
start_price_updates, stop_updates calls stop_price_updates, and loopEnded is
the running loop terminating on its own (its error arm). -/
def connStep (s : ConnState) : ConnOp → ConnState
  | .startUpdates => start_price_updates s
  | .stopUpdates => stop_price_updates s
  | .loopEnded =>
      match s.update_task with
      | some TaskState.running =>
          { update_task := some TaskState.finished, liveLoops := s.liveLoops - 1 }
      | _ => s

/-- The connection state after a sequence of events from a fresh connection. -/
def connRun (ops : List ConnOp) : ConnState := ops.foldl connStep connInit

/-- The intervals coded in generate_mock_price_data: every numeric field of
the mock data lies in the interval its uniform draw was given. -/
def MockDataInBounds (d : MockPriceData) : Prop :=
  (45000 ≤ d.total_value ∧ d.total_value ≤ 55000) ∧
  (-500 ≤ d.total_change ∧ d.total_change ≤ 500) ∧
  (-2 ≤ d.total_change_percent ∧ d.total_change_percent ≤ 2) ∧
  ∃ a m g : MockInvestment, d.investments = [a, m, g] ∧
    ((150 ≤ a.current_price ∧ a.current_price ≤ 200) ∧
     (-5 ≤ a.change ∧ a.change ≤ 5) ∧
     (-3 ≤ a.change_percent ∧ a.change_percent ≤ 3) ∧
     (15000 ≤ a.value ∧ a.value ≤ 20000) ∧ a.quantity = 100) ∧
    ((300 ≤ m.current_price ∧ m.current_price ≤ 400) ∧
     (-8 ≤ m.change ∧ m.change ≤ 8) ∧
     (-2 ≤ m.change_percent ∧ m.change_percent ≤ 2) ∧
     (15000 ≤ m.value ∧ m.value ≤ 20000) ∧ m.quantity = 50) ∧
    ((120 ≤ g.current_price ∧ g.current_price ≤ 150) ∧
     (-3 ≤ g.change ∧ g.change ≤ 3) ∧
     (-2 ≤ g.change_percent ∧ g.change_percent ≤ 2) ∧
     (9000 ≤ g.value ∧ g.value ≤ 11250) ∧ g.quantity = 75)

/-- Shape the specification describes for the update loop: repeatedly one
emission followed by a wait of exactly five seconds, until cancelled. -/
inductive EmitThenSleep5 : List LoopEvent → Prop where
  | nil : EmitThenSleep5 []
  | cons (d : MockPriceData) (rest : List LoopEvent) :
      EmitThenSleep5 rest →
      EmitThenSleep5 (LoopEvent.emit d :: LoopEvent.sleep 5 :: rest)

/-! Theorems. -/

/-- C4: Investment.total_value is exactly quantity * purchase_price, and
Portfolio.age_days and Investment.days_held are the whole number of days
elapsed since created_at and purchase_date: the unique integer d with
86400 * d ≤ elapsed seconds < 86400 * (d + 1). -/
theorem c4_computed_properties (now : Int) (p : Portfolio) (i : Investment) :
    total_value i = i.quantity * i.purchase_price ∧
    (86400 * age_days now p ≤ now - p.created_at ∧
      now - p.created_at < 86400 * (age_days now p + 1)) ∧
    (86400 * days_held now i ≤ now - i.purchase_date ∧
      now - i.purchase_date < 86400 * (days_held now i + 1)) := by
  refine ⟨rfl, ?_, ?_⟩ <;>
    · simp only [age_days, days_held, timedeltaDays]
      omega

/-- C6, counterexample: health_check is a periodic task whose body can raise,
yet its except arm returns an error payload instead of calling self.retry, so
not every periodic task retries on failure. -/
theorem c6_counterexample :
    health_check true = TaskOutcome.errorValue ∧
    ∀ c m : Nat, health_check true ≠ TaskOutcome.retry c m := by
  refine ⟨rfl, ?_⟩
  intro c m h
  simp [health_check] at h

/-- C6, amended: when their bodies raise, refresh_portfolio_analytics
retries with countdown 300 and max_retries 3, cleanup_old_logs with 600 and
2, send_portfolio_notifications with 300 and 2; health_check does not retry
but returns an error payload. -/
theorem c6_retry_policies :
    refresh_portfolio_analytics true = TaskOutcome.retry 300 3 ∧
    cleanup_old_logs true = TaskOutcome.retry 600 2 ∧
    send_portfolio_notifications true = TaskOutcome.retry 300 2 ∧
    health_check true = TaskOutcome.errorValue :=
  ⟨rfl, rfl, rfl, rfl⟩

/-- C5, counterexample: the message the consumer sends on connect has no
data field, so not every emitted message carries type, data and timestamp. -/
theorem c5_counterexample :
    hasKey (connectMsg "2024-01-01T00:00:00" "anonymous") "data" = false := by
  decide

/-- C5, amended: the portfolio_data reply and the price_update message of
the loop carry exactly type, data and timestamp; the connect confirmation
carries type, message, timestamp and user but no data; the error reply to
invalid JSON carries only type and message, with neither timestamp nor data;
start_updates, stop_updates and unknown message types draw no direct
reply. -/
theorem c5_message_fields (ts user t : String) :
    (hasKey (connectMsg ts user) "type" = true ∧
     hasKey (connectMsg ts user) "message" = true ∧
     hasKey (connectMsg ts user) "timestamp" = true ∧
     hasKey (connectMsg ts user) "user" = true ∧
     hasKey (connectMsg ts user) "data" = false) ∧
    (hasKey (loopMsg ts) "type" = true ∧
     hasKey (loopMsg ts) "data" = true ∧
     hasKey (loopMsg ts) "timestamp" = true) ∧
    (receiveReply ts (ClientMsg.typed "get_portfolio_data") =
      [[("type", JVal.s "portfolio_data"), ("data", JVal.payload),
        ("timestamp", JVal.s ts)]]) ∧
    (receiveReply ts ClientMsg.invalidJson =
      [[("type", JVal.s "error"), ("message", JVal.s "Invalid JSON format")]]) ∧
    (∀ m ∈ receiveReply ts ClientMsg.invalidJson,
      hasKey m "type" = true ∧ hasKey m "message" = true ∧
      hasKey m "data" = false ∧ hasKey m "timestamp" = false) ∧
    (t ≠ "get_portfolio_data" → receiveReply ts (ClientMsg.typed t) = []) := by
  refine ⟨?_, ?_, ?_, ?_, ?_, ?_⟩
  · simp [hasKey, connectMsg]
  · simp [hasKey, loopMsg]
  · rfl
  · rfl
  · intro m hm
    simp only [receiveReply, List.mem_singleton] at hm
    subst hm
    exact ⟨by decide, by decide, by decide, by decide⟩
  · intro hne
    have hb : (t == "get_portfolio_data") = false := beq_eq_false_iff_ne.mpr hne
    simp [receiveReply, hb]

/-- C5, witness of the amended theorem: the invalid-JSON reply carries only
type and message, and a start_updates message draws no direct reply. -/
theorem c5_message_fields_witness :
    (hasKey [("type", JVal.s "error"), ("message", JVal.s "Invalid JSON format")]
        "type" = true ∧
     hasKey [("type", JVal.s "error"), ("message", JVal.s "Invalid JSON format")]
        "message" = true ∧
     hasKey [("type", JVal.s "error"), ("message", JVal.s "Invalid JSON format")]
        "data" = false ∧
     hasKey [("type", JVal.s "error"), ("message", JVal.s "Invalid JSON format")]
        "timestamp" = false) ∧
    receiveReply "2024-01-01T00:00:00" (ClientMsg.typed "start_updates") = [] :=
  ⟨(c5_message_fields "2024-01-01T00:00:00" "u" "start_updates").2.2.2.2.1
      [("type", JVal.s "error"), ("message", JVal.s "Invalid JSON format")]
      (by decide),
   (c5_message_fields "2024-01-01T00:00:00" "u" "start_updates").2.2.2.2.2
      (by decide)⟩

/-- C8: the beat schedule sends refresh-portfolio-analytics to queue
analytics hourly at minute 0, cleanup-old-logs to queue maintenance daily at
2 AM, health-check to queue monitoring every 60 seconds; the route table
confirms those three queues and routes every other finflow.core task to
queue default. -/
theorem c8_beat_schedule_routes (name : String)
    (h1 : startsWithStr name "finflow.core.tasks." = true)
    (h2 : name ≠ "finflow.core.tasks.refresh_portfolio_analytics")
    (h3 : name ≠ "finflow.core.tasks.cleanup_old_logs")
    (h4 : name ≠ "finflow.core.tasks.health_check") :
    (beat_schedule.lookup "refresh-portfolio-analytics" = some
      { task := "finflow.core.tasks.refresh_portfolio_analytics"
        schedule := Sched.crontab (some 0) none
        queue := "analytics", priority := 5 }) ∧
    (beat_schedule.lookup "cleanup-old-logs" = some
      { task := "finflow.core.tasks.cleanup_old_logs"
        schedule := Sched.crontab (some 0) (some 2)
        queue := "maintenance", priority := 3 }) ∧
    (beat_schedule.lookup "health-check" = some
      { task := "finflow.core.tasks.health_check"
        schedule := Sched.seconds 60
        queue := "monitoring", priority := 1 }) ∧
    routeFor "finflow.core.tasks.refresh_portfolio_analytics" = some "analytics" ∧
    routeFor "finflow.core.tasks.cleanup_old_logs" = some "maintenance" ∧
    routeFor "finflow.core.tasks.health_check" = some "monitoring" ∧
    routeFor name = some "default" := by
  refine ⟨by decide, by decide, by decide, by decide, by decide, by decide, ?_⟩
  have e1 : patternMatches "finflow.core.tasks.refresh_portfolio_analytics" name
      = false := by
    simp only [patternMatches]
    rw [if_neg (by decide)]
    exact beq_eq_false_iff_ne.mpr (fun e => h2 e.symm)
  have e2 : patternMatches "finflow.core.tasks.cleanup_old_logs" name = false := by
    simp only [patternMatches]
    rw [if_neg (by decide)]
    exact beq_eq_false_iff_ne.mpr (fun e => h3 e.symm)
  have e3 : patternMatches "finflow.core.tasks.health_check" name = false := by
    simp only [patternMatches]
    rw [if_neg (by decide)]
    exact beq_eq_false_iff_ne.mpr (fun e => h4 e.symm)
  have e4 : patternMatches "finflow.core.tasks.*" name = true := by
    simp only [patternMatches]
    rw [if_pos (by decide)]
    have hd : "finflow.core.tasks.*".data.dropLast = "finflow.core.tasks.".data := by
      decide
    rw [hd]
    exact h1
  unfold routeFor task_routes
  rw [List.find?_cons_of_neg _ (by simp [e1]),
      List.find?_cons_of_neg _ (by simp [e2]),
      List.find?_cons_of_neg _ (by simp [e3]),
      List.find?_cons_of_pos _ (by simp [e4])]
  rfl

/-- C8, witness: finflow.core.tasks.test_task is routed to queue default. -/
theorem c8_beat_schedule_routes_witness :
    routeFor "finflow.core.tasks.test_task" = some "default" :=
  (c8_beat_schedule_routes "finflow.core.tasks.test_task"
    (by decide) (by decide) (by decide) (by decide)).2.2.2.2.2.2

/-- C1: through each of the three viewsets separately, a retrieve, update
or delete request by user u for a pk whose portfolio, investment or
transaction (through the foreign-key joins) is owned by a user other than u
answers not-found, and the database is left unchanged. -/
theorem c1_cross_user_not_found (db : DB) (u pk : Id)
    (nm ds sym tt : String) (act : Bool) (q pr am : ℚ) :
    ((∀ p ∈ db.portfolios, p.id = pk → p.user ≠ u) →
      portfolio_retrieve db u pk = RestResult.notFound ∧
      portfolio_update db u pk nm ds act = (RestResult.notFound, db) ∧
      portfolio_destroy db u pk = (RestResult.notFound, db)) ∧
    ((∀ i ∈ db.investments, i.id = pk →
        ∀ p ∈ db.portfolios, p.id = i.portfolio → p.user ≠ u) →
      investment_retrieve db u pk = RestResult.notFound ∧
      investment_update db u pk sym q pr = (RestResult.notFound, db) ∧
      investment_destroy db u pk = (RestResult.notFound, db)) ∧
    ((∀ t ∈ db.transactions, t.id = pk →
        ∀ i ∈ db.investments, i.id = t.investment →
          ∀ p ∈ db.portfolios, p.id = i.portfolio → p.user ≠ u) →
      transaction_retrieve db u pk = RestResult.notFound ∧
      transaction_update db u pk tt am = (RestResult.notFound, db) ∧
      transaction_destroy db u pk = (RestResult.notFound, db)) := by
  refine ⟨?_, ?_, ?_⟩
  · intro hp
    have hP : (portfolio_get_queryset db u).find? (fun p => p.id == pk) = none := by
      rw [List.find?_eq_none]
      intro p hmem
      rw [portfolio_get_queryset, List.mem_filter] at hmem
      simp only [beq_iff_eq] at hmem ⊢
      intro hid
      exact hp p hmem.1 hid hmem.2
    exact ⟨by simp [portfolio_retrieve, hP], by simp [portfolio_update, hP],
      by simp [portfolio_destroy, hP]⟩
  · intro hi
    have hIown : ∀ i ∈ db.investments, i.id = pk →
        investmentOwnedBy db i u = false := by
      intro i him hid
      rw [investmentOwnedBy, List.any_eq_false]
      intro p hpm
      simp only [Bool.and_eq_true, beq_iff_eq, not_and]
      intro hpid hpu
      exact hi i him hid p hpm hpid hpu
    have hI : (investment_get_queryset db u).find? (fun i => i.id == pk) = none := by
      rw [List.find?_eq_none]
      intro i hmem
      rw [investment_get_queryset, List.mem_filter] at hmem
      simp only [beq_iff_eq]
      intro hid
      have hf := hIown i hmem.1 hid
      rw [hmem.2] at hf
      simp at hf
    exact ⟨by simp [investment_retrieve, hI], by simp [investment_update, hI],
      by simp [investment_destroy, hI]⟩
  · intro ht
    have hT : (transaction_get_queryset db u).find? (fun t => t.id == pk) = none := by
      rw [List.find?_eq_none]
      intro t hmem
      rw [transaction_get_queryset, List.mem_filter] at hmem
      simp only [beq_iff_eq]
      intro hid
      have hown : transactionOwnedBy db t u = false := by
        rw [transactionOwnedBy, List.any_eq_false]
        intro i him
        simp only [Bool.and_eq_true, beq_iff_eq, not_and]
        intro hiid
        intro hio
        rw [investmentOwnedBy, List.any_eq_true] at hio
        obtain ⟨p, hpm, hpp⟩ := hio
        simp only [Bool.and_eq_true, beq_iff_eq] at hpp
        exact ht t hmem.1 hid i him hiid p hpm hpp.1 hpp.2
      rw [hmem.2] at hown
      simp at hown
    exact ⟨by simp [transaction_retrieve, hT], by simp [transaction_update, hT],
      by simp [transaction_destroy, hT]⟩

set_option maxRecDepth 4000 in
/-- C1, witness: user 1 requesting pk 1 in a store where portfolio 1 is
user 1's own but investment 1 and transaction 1 descend from user 2's
portfolio 2, so the investment and transaction guarantees apply on their
own. -/
theorem c1_cross_user_not_found_witness :
    (investment_retrieve
      ⟨[⟨1, "alice", true⟩, ⟨2, "bob", true⟩],
       [⟨1, 1, "Mine", "", true, 0⟩, ⟨2, 2, "Bobs", "", true, 0⟩],
       [⟨1, 2, "AAPL", 1, 1, 0⟩], [⟨1, 1, "buy", 5⟩]⟩ 1 1
      = RestResult.notFound ∧
    investment_update
      ⟨[⟨1, "alice", true⟩, ⟨2, "bob", true⟩],
       [⟨1, 1, "Mine", "", true, 0⟩, ⟨2, 2, "Bobs", "", true, 0⟩],
       [⟨1, 2, "AAPL", 1, 1, 0⟩], [⟨1, 1, "buy", 5⟩]⟩ 1 1 "s" 1 1
      = (RestResult.notFound,
         ⟨[⟨1, "alice", true⟩, ⟨2, "bob", true⟩],
          [⟨1, 1, "Mine", "", true, 0⟩, ⟨2, 2, "Bobs", "", true, 0⟩],
          [⟨1, 2, "AAPL", 1, 1, 0⟩], [⟨1, 1, "buy", 5⟩]⟩) ∧
    investment_destroy
      ⟨[⟨1, "alice", true⟩, ⟨2, "bob", true⟩],
       [⟨1, 1, "Mine", "", true, 0⟩, ⟨2, 2, "Bobs", "", true, 0⟩],
       [⟨1, 2, "AAPL", 1, 1, 0⟩], [⟨1, 1, "buy", 5⟩]⟩ 1 1
      = (RestResult.notFound,
         ⟨[⟨1, "alice", true⟩, ⟨2, "bob", true⟩],
          [⟨1, 1, "Mine", "", true, 0⟩, ⟨2, 2, "Bobs", "", true, 0⟩],
          [⟨1, 2, "AAPL", 1, 1, 0⟩], [⟨1, 1, "buy", 5⟩]⟩)) ∧
    (transaction_retrieve
      ⟨[⟨1, "alice", true⟩, ⟨2, "bob", true⟩],
       [⟨1, 1, "Mine", "", true, 0⟩, ⟨2, 2, "Bobs", "", true, 0⟩],
       [⟨1, 2, "AAPL", 1, 1, 0⟩], [⟨1, 1, "buy", 5⟩]⟩ 1 1
      = RestResult.notFound ∧
    transaction_update
      ⟨[⟨1, "alice", true⟩, ⟨2, "bob", true⟩],
       [⟨1, 1, "Mine", "", true, 0⟩, ⟨2, 2, "Bobs", "", true, 0⟩],
       [⟨1, 2, "AAPL", 1, 1, 0⟩], [⟨1, 1, "buy", 5⟩]⟩ 1 1 "sell" 2
      = (RestResult.notFound,
         ⟨[⟨1, "alice", true⟩, ⟨2, "bob", true⟩],
          [⟨1, 1, "Mine", "", true, 0⟩, ⟨2, 2, "Bobs", "", true, 0⟩],
          [⟨1, 2, "AAPL", 1, 1, 0⟩], [⟨1, 1, "buy", 5⟩]⟩) ∧
    transaction_destroy
      ⟨[⟨1, "alice", true⟩, ⟨2, "bob", true⟩],
       [⟨1, 1, "Mine", "", true, 0⟩, ⟨2, 2, "Bobs", "", true, 0⟩],
       [⟨1, 2, "AAPL", 1, 1, 0⟩], [⟨1, 1, "buy", 5⟩]⟩ 1 1
      = (RestResult.notFound,
         ⟨[⟨1, "alice", true⟩, ⟨2, "bob", true⟩],
          [⟨1, 1, "Mine", "", true, 0⟩, ⟨2, 2, "Bobs", "", true, 0⟩],
          [⟨1, 2, "AAPL", 1, 1, 0⟩], [⟨1, 1, "buy", 5⟩]⟩)) :=
  ⟨(c1_cross_user_not_found
      ⟨[⟨1, "alice", true⟩, ⟨2, "bob", true⟩],
       [⟨1, 1, "Mine", "", true, 0⟩, ⟨2, 2, "Bobs", "", true, 0⟩],
       [⟨1, 2, "AAPL", 1, 1, 0⟩], [⟨1, 1, "buy", 5⟩]⟩ 1 1
      "n" "d" "s" "sell" true 1 1 2).2.1 (by decide),
   (c1_cross_user_not_found
      ⟨[⟨1, "alice", true⟩, ⟨2, "bob", true⟩],
       [⟨1, 1, "Mine", "", true, 0⟩, ⟨2, 2, "Bobs", "", true, 0⟩],
       [⟨1, 2, "AAPL", 1, 1, 0⟩], [⟨1, 1, "buy", 5⟩]⟩ 1 1
      "n" "d" "s" "sell" true 1 1 2).2.2 (by decide)⟩

/-- A string of length zero is the empty string. -/
theorem string_length_eq_zero {s : String} (h : s.length = 0) : s = "" := by
  cases s with
  | mk data =>
    cases data with
    | nil => rfl
    | cons a l => simp [String.length] at h

/-- The symbol validator accepts exactly the symbols with a non-empty strip
and returns the stripped upper-cased symbol. -/
theorem validate_symbol_ok {x s : String} (h : validate_symbol x = .ok s) :
    strip x ≠ "" ∧ s = upper (strip x) := by
  by_cases hc : (((strip x).length == 0) = true)
  · unfold validate_symbol at h
    rw [if_pos hc] at h
    cases h
  · unfold validate_symbol at h
    rw [if_neg hc] at h
    cases h
    refine ⟨fun he => hc ?_, rfl⟩
    rw [he]
    rfl

/-- The quantity validator accepts exactly the positive quantities. -/
theorem validate_quantity_ok {q v : ℚ} (h : validate_quantity q = .ok v) :
    0 < q ∧ v = q := by
  by_cases hc : q ≤ 0
  · unfold validate_quantity at h
    rw [if_pos hc] at h
    cases h
  · unfold validate_quantity at h
    rw [if_neg hc] at h
    cases h
    exact ⟨not_le.mp hc, rfl⟩

/-- The purchase-price validator accepts exactly the positive prices. -/
theorem validate_purchase_price_ok {q v : ℚ}
    (h : validate_purchase_price q = .ok v) : 0 < q ∧ v = q := by
  by_cases hc : q ≤ 0
  · unfold validate_purchase_price at h
    rw [if_pos hc] at h
    cases h
  · unfold validate_purchase_price at h
    rw [if_neg hc] at h
    cases h
    exact ⟨not_le.mp hc, rfl⟩

/-- Inversion of serializer acceptance: an accepted payload names an
existing portfolio, fits the length and digit caps, has positive quantity
and price and a non-blank symbol, and the accepted value carries the
stripped upper-cased symbol. -/
theorem investmentSerializer_validate_ok {db : DB} {p v : InvestmentPayload}
    (h : investmentSerializer_validate db p = .ok v) :
    (∃ pid', p.portfolio = some pid' ∧
      (db.portfolios.any fun q => q.id == pid') = true) ∧
    (strip p.symbol).length ≤ 20 ∧
    decimal_valid 15 6 p.quantity = true ∧
    decimal_valid 10 2 p.purchase_price = true ∧
    0 < p.quantity ∧ 0 < p.purchase_price ∧ strip p.symbol ≠ "" ∧
    v = { p with symbol := upper (strip p.symbol) } := by
  unfold investmentSerializer_validate at h
  cases hpf : p.portfolio with
  | none =>
      rw [hpf] at h
      cases h
  | some pid' =>
      rw [hpf] at h
      dsimp only at h
      by_cases g1 : ((!(db.portfolios.any fun q => q.id == pid')) = true)
      · rw [if_pos g1] at h
        cases h
      · rw [if_neg g1] at h
        by_cases g2 : 20 < (strip p.symbol).length
        · rw [if_pos g2] at h
          cases h
        · rw [if_neg g2] at h
          by_cases g3 : ((!(decimal_valid 15 6 p.quantity)) = true)
          · rw [if_pos g3] at h
            cases h
          · rw [if_neg g3] at h
            by_cases g4 : ((!(decimal_valid 10 2 p.purchase_price)) = true)
            · rw [if_pos g4] at h
              cases h
            · rw [if_neg g4] at h
              cases hs : validate_symbol p.symbol with
              | error e =>
                  cases hq2 : validate_quantity p.quantity <;>
                    cases hp2 : validate_purchase_price p.purchase_price <;>
                      rw [hs, hq2, hp2] at h <;> cases h
              | ok s =>
                  cases hq2 : validate_quantity p.quantity with
                  | error e =>
                      cases hp2 : validate_purchase_price p.purchase_price <;>
                        rw [hs, hq2, hp2] at h <;> cases h
                  | ok qv =>
                      cases hp2 : validate_purchase_price p.purchase_price with
                      | error e =>
                          rw [hs, hq2, hp2] at h
                          cases h
                      | ok pv =>
                          rw [hs, hq2, hp2] at h
                          dsimp only at h
                          cases h
                          obtain ⟨hs1, hs2⟩ := validate_symbol_ok hs
                          obtain ⟨hq1, hqeq⟩ := validate_quantity_ok hq2
                          obtain ⟨hp1, hpeq⟩ := validate_purchase_price_ok hp2
                          subst hs2
                          subst hqeq
                          subst hpeq
                          refine ⟨⟨pid', rfl, ?_⟩, not_lt.mp g2, ?_, ?_,
                            hq1, hp1, hs1, rfl⟩
                          · cases hb : (db.portfolios.any fun q => q.id == pid') with
                            | false => exact absurd (by rw [hb]; rfl) g1
                            | true => rfl
                          · cases hb : decimal_valid 15 6 p.quantity with
                            | false => exact absurd (by rw [hb]; rfl) g3
                            | true => rfl
                          · cases hb : decimal_valid 10 2 p.purchase_price with
                            | false => exact absurd (by rw [hb]; rfl) g4
                            | true => rfl

/-- C9: creating an investment through add_investment answers 400 and
writes nothing when quantity or purchase_price is not strictly positive or
the symbol strips to nothing; every payload the serializer accepts (which
also requires an existing portfolio, the 20-character symbol cap and the
decimal digit caps) is saved with status 201 and its symbol stored stripped
and upper-cased, and those conditions do suffice for acceptance. -/
theorem c9_investment_validation (db : DB) (pid nid : Id) (p : InvestmentPayload) :
    ((p.quantity ≤ 0 ∨ p.purchase_price ≤ 0 ∨ strip p.symbol = "") →
      add_investment db pid nid p = (400, db)) ∧
    (∀ v, investmentSerializer_validate db p = .ok v →
      add_investment db pid nid p =
        (201, { db with investments := db.investments ++
          [{ id := nid, portfolio := pid, symbol := upper (strip p.symbol),
             quantity := p.quantity, purchase_price := p.purchase_price,
             purchase_date := p.purchase_date }] })) ∧
    (∀ pid', p.portfolio = some pid' →
      (db.portfolios.any fun q => q.id == pid') = true →
      (strip p.symbol).length ≤ 20 →
      decimal_valid 15 6 p.quantity = true →
      decimal_valid 10 2 p.purchase_price = true →
      0 < p.quantity → 0 < p.purchase_price → strip p.symbol ≠ "" →
      add_investment db pid nid p =
        (201, { db with investments := db.investments ++
          [{ id := nid, portfolio := pid, symbol := upper (strip p.symbol),
             quantity := p.quantity, purchase_price := p.purchase_price,
             purchase_date := p.purchase_date }] })) := by
  have accept : ∀ v, investmentSerializer_validate db p = .ok v →
      add_investment db pid nid p =
        (201, { db with investments := db.investments ++
          [{ id := nid, portfolio := pid, symbol := upper (strip p.symbol),
             quantity := p.quantity, purchase_price := p.purchase_price,
             purchase_date := p.purchase_date }] }) := by
    intro v hv
    obtain ⟨-, -, -, -, -, -, -, hveq⟩ := investmentSerializer_validate_ok hv
    subst hveq
    unfold add_investment
    rw [hv]
  refine ⟨?_, accept, ?_⟩
  · intro hbad
    cases hv : investmentSerializer_validate db p with
    | error e =>
        unfold add_investment
        rw [hv]
    | ok v =>
        exfalso
        obtain ⟨-, -, -, -, hq, hpr, hsne, -⟩ :=
          investmentSerializer_validate_ok hv
        rcases hbad with hb | hb | hb
        · exact absurd hq (not_lt.mpr hb)
        · exact absurd hpr (not_lt.mpr hb)
        · exact hsne hb
  · intro pid' hpf hex hlen hd1 hd2 hq hpr hsne
    have hlen0 : ((strip p.symbol).length == 0) = false :=
      beq_eq_false_iff_ne.mpr (fun h => hsne (string_length_eq_zero h))
    have hsy : validate_symbol p.symbol = .ok (upper (strip p.symbol)) := by
      simp [validate_symbol, hlen0]
    have hqv : validate_quantity p.quantity = .ok p.quantity := by
      simp only [validate_quantity]
      rw [if_neg (not_le.mpr hq)]
    have hpv : validate_purchase_price p.purchase_price = .ok p.purchase_price := by
      simp only [validate_purchase_price]
      rw [if_neg (not_le.mpr hpr)]
    have hok : investmentSerializer_validate db p =
        .ok { p with symbol := upper (strip p.symbol) } := by
      unfold investmentSerializer_validate
      rw [hpf]
      dsimp only
      rw [if_neg (by simp [hex]), if_neg (not_lt.mpr hlen),
        if_neg (by simp [hd1]), if_neg (by simp [hd2]), hsy, hqv, hpv]
    exact accept _ hok

/-- C9, witness: against a store holding portfolio 1, a whitespace symbol is
rejected without a write, and a payload with portfolio 1 and symbol
" aapl " is stored as AAPL with status 201. -/
theorem c9_investment_validation_witness :
    add_investment ⟨[], [⟨1, 1, "Main", "", true, 0⟩], [], []⟩ 1 1
      ⟨some 1, "   ", 1, 1, 0⟩
      = (400, ⟨[], [⟨1, 1, "Main", "", true, 0⟩], [], []⟩) ∧
    add_investment ⟨[], [⟨1, 1, "Main", "", true, 0⟩], [], []⟩ 1 1
      ⟨some 1, " aapl ", 5, 10, 0⟩ =
      (201, { users := [], portfolios := [⟨1, 1, "Main", "", true, 0⟩],
              investments := [{ id := 1, portfolio := 1,
                                symbol := upper (strip " aapl "), quantity := 5,
                                purchase_price := 10, purchase_date := 0 }],
              transactions := [] }) :=
  ⟨(c9_investment_validation ⟨[], [⟨1, 1, "Main", "", true, 0⟩], [], []⟩ 1 1
      ⟨some 1, "   ", 1, 1, 0⟩).1 (Or.inr (Or.inr (by decide))),
   (c9_investment_validation ⟨[], [⟨1, 1, "Main", "", true, 0⟩], [], []⟩ 1 1
      ⟨some 1, " aapl ", 5, 10, 0⟩).2.2 1 rfl (by decide) (by decide)
      (by decide) (by decide) (by norm_num) (by norm_num) (by decide)⟩

/-- One connection step keeps the count of live loops tied to the status of
the update_task handle. -/
theorem connStep_inv (s : ConnState) (op : ConnOp)
    (h : s.liveLoops = if s.update_task = some TaskState.running then 1 else 0) :
    (connStep s op).liveLoops =
      if (connStep s op).update_task = some TaskState.running then 1 else 0 := by
  cases op <;> rcases hs : s.update_task with _ | st <;> try cases st
  all_goals
    simp_all [connStep, start_price_updates, stop_price_updates]

/-- C10: start_price_updates is a no-op while the update task is running,
and over every sequence of connection events at most one price-update loop
is live. -/
theorem c10_single_loop :
    (∀ s : ConnState, s.update_task = some TaskState.running →
      start_price_updates s = s) ∧
    ∀ ops : List ConnOp, (connRun ops).liveLoops ≤ 1 := by
  constructor
  · intro s h
    simp [start_price_updates, h]
  · intro ops
    have key : ∀ (l : List ConnOp) (s : ConnState),
        s.liveLoops = (if s.update_task = some TaskState.running then 1 else 0) →
        (l.foldl connStep s).liveLoops =
          (if (l.foldl connStep s).update_task = some TaskState.running
           then 1 else 0) := by
      intro l
      induction l with
      | nil => intro s h; simpa using h
      | cons op rest ih =>
          intro s h
          exact ih (connStep s op) (connStep_inv s op h)
    have h0 := key ops connInit (by simp [connInit])
    rw [connRun, h0]
    split <;> omega

/-- C10, witness: a second start while a loop runs changes nothing, and two
starts in a row leave a single live loop. -/
theorem c10_single_loop_witness :
    start_price_updates ⟨some TaskState.running, 1⟩ = ⟨some TaskState.running, 1⟩ ∧
    (connRun [ConnOp.startUpdates, ConnOp.startUpdates]).liveLoops ≤ 1 :=
  ⟨c10_single_loop.1 ⟨some TaskState.running, 1⟩ rfl,
   c10_single_loop.2 [ConnOp.startUpdates, ConnOp.startUpdates]⟩

/-- Rows of a table with duplicate-free primary keys that share an id are
equal. -/
theorem row_eq_of_id_eq {α : Type} (idf : α → Id) {l : List α}
    (h : (l.map idf).Nodup) {a b : α} (ha : a ∈ l) (hb : b ∈ l)
    (hid : idf a = idf b) : a = b :=
  List.inj_on_of_nodup_map h ha hb hid

/-- C2: under the two UniqueConstraints, an insert or a name/symbol update
that would duplicate (user, name) on Portfolio or (portfolio, symbol) on
Investment is rejected, and any accepted insert or update preserves both
uniqueness invariants. -/
theorem c2_uniqueness_constraints (db : DB)
    (hP : uniqueUserPortfolioName db.portfolios)
    (hI : uniquePortfolioSymbol db.investments)
    (hPid : (db.portfolios.map Portfolio.id).Nodup)
    (hIid : (db.investments.map Investment.id).Nodup) :
    (∀ row : Portfolio,
      ((∃ q ∈ db.portfolios, q.user = row.user ∧ q.name = row.name) →
        insertPortfolio db row = .error "unique_user_portfolio_name") ∧
      ∀ db', insertPortfolio db row = .ok db' →
        uniqueUserPortfolioName db'.portfolios) ∧
    (∀ pk newName p, db.portfolios.find? (fun q => q.id == pk) = some p →
      (∃ q ∈ db.portfolios, q.id ≠ pk ∧ q.user = p.user ∧ q.name = newName) →
      updatePortfolioName db pk newName = .error "unique_user_portfolio_name") ∧
    (∀ pk newName db', updatePortfolioName db pk newName = .ok db' →
      uniqueUserPortfolioName db'.portfolios) ∧
    (∀ row : Investment,
      ((∃ q ∈ db.investments, q.portfolio = row.portfolio ∧ q.symbol = row.symbol) →
        insertInvestment db row = .error "unique_portfolio_symbol") ∧
      ∀ db', insertInvestment db row = .ok db' →
        uniquePortfolioSymbol db'.investments) ∧
    (∀ pk newSymbol i, db.investments.find? (fun q => q.id == pk) = some i →
      (∃ q ∈ db.investments, q.id ≠ pk ∧ q.portfolio = i.portfolio ∧
        q.symbol = newSymbol) →
      updateInvestmentSymbol db pk newSymbol = .error "unique_portfolio_symbol") ∧
    (∀ pk newSymbol db', updateInvestmentSymbol db pk newSymbol = .ok db' →
      uniquePortfolioSymbol db'.investments) := by
  refine ⟨?_, ?_, ?_, ?_, ?_, ?_⟩
  · intro row
    constructor
    · rintro ⟨q, hq, h1, h2⟩
      rw [insertPortfolio, if_pos (List.any_eq_true.mpr ⟨q, hq, by simp [h1, h2]⟩)]
    · intro db' hok
      by_cases hc :
          (db.portfolios.any fun q => q.user == row.user && q.name == row.name) = true
      · rw [insertPortfolio, if_pos hc] at hok
        cases hok
      · rw [insertPortfolio, if_neg hc] at hok
        cases hok
        have hnone : ∀ q ∈ db.portfolios,
            ¬(q.user = row.user ∧ q.name = row.name) := by
          intro q hq hqe
          exact hc (List.any_eq_true.mpr ⟨q, hq, by simp [hqe.1, hqe.2]⟩)
        intro a ha b hb hu hn
        rcases List.mem_cons.mp ha with rfl | ha' <;>
          rcases List.mem_cons.mp hb with rfl | hb'
        · rfl
        · exact absurd ⟨hu.symm, hn.symm⟩ (hnone b hb')
        · exact absurd ⟨hu, hn⟩ (hnone a ha')
        · exact hP a ha' b hb' hu hn
  · rintro pk newName p hfind ⟨q, hq, hne, hu, hn⟩
    rw [updatePortfolioName, hfind]
    dsimp only
    rw [if_pos (List.any_eq_true.mpr ⟨q, hq, by simp [hne, hu, hn]⟩)]
  · intro pk newName db' hok
    cases hfind : db.portfolios.find? (fun q => q.id == pk) with
    | none => rw [updatePortfolioName, hfind] at hok; cases hok
    | some p =>
      rw [updatePortfolioName, hfind] at hok
      dsimp only at hok
      by_cases hc : (db.portfolios.any fun q =>
          q.id != pk && q.user == p.user && q.name == newName) = true
      · rw [if_pos hc] at hok; cases hok
      · rw [if_neg hc] at hok
        cases hok
        have hpid : p.id = pk := by
          have := List.find?_some hfind
          simpa using this
        have hpm : p ∈ db.portfolios := List.mem_of_find?_eq_some hfind
        have hnone : ∀ q ∈ db.portfolios,
            q.id ≠ pk → q.user = p.user → q.name ≠ newName := by
          intro q hq h1 h2 h3
          exact hc (List.any_eq_true.mpr ⟨q, hq, by simp [h1, h2, h3]⟩)
        intro a' ha' b' hb' hu hn
        obtain ⟨a, ha, rfl⟩ := List.mem_map.mp ha'
        obtain ⟨b, hb, rfl⟩ := List.mem_map.mp hb'
        by_cases ca : (a.id == pk) = true <;> by_cases cb : (b.id == pk) = true
        · rw [if_pos ca, if_pos cb] at hu hn ⊢
          dsimp only at hu hn ⊢
          rw [beq_iff_eq.mp ca, beq_iff_eq.mp cb]
        · have haq : a = p := row_eq_of_id_eq Portfolio.id hPid ha hpm
            (by rw [beq_iff_eq.mp ca, hpid])
          rw [if_pos ca, if_neg cb] at hu hn ⊢
          dsimp only at hu hn ⊢
          have cb' : b.id ≠ pk := fun h => cb (beq_iff_eq.mpr h)
          exact absurd hn.symm (hnone b hb cb' (by rw [← hu, haq]))
        · have hbq : b = p := row_eq_of_id_eq Portfolio.id hPid hb hpm
            (by rw [beq_iff_eq.mp cb, hpid])
          rw [if_neg ca, if_pos cb] at hu hn ⊢
          dsimp only at hu hn ⊢
          have ca' : a.id ≠ pk := fun h => ca (beq_iff_eq.mpr h)
          exact absurd hn (hnone a ha ca' (by rw [hu, hbq]))
        · rw [if_neg ca, if_neg cb] at hu hn ⊢
          exact hP a ha b hb hu hn
  · intro row
    constructor
    · rintro ⟨q, hq, h1, h2⟩
      rw [insertInvestment, if_pos (List.any_eq_true.mpr ⟨q, hq, by simp [h1, h2]⟩)]
    · intro db' hok
      by_cases hc : (db.investments.any fun q =>
          q.portfolio == row.portfolio && q.symbol == row.symbol) = true
      · rw [insertInvestment, if_pos hc] at hok
        cases hok
      · rw [insertInvestment, if_neg hc] at hok
        cases hok
        have hnone : ∀ q ∈ db.investments,
            ¬(q.portfolio = row.portfolio ∧ q.symbol = row.symbol) := by
          intro q hq hqe
          exact hc (List.any_eq_true.mpr ⟨q, hq, by simp [hqe.1, hqe.2]⟩)
        intro a ha b hb hu hn
        rcases List.mem_cons.mp ha with rfl | ha' <;>
          rcases List.mem_cons.mp hb with rfl | hb'
        · rfl
        · exact absurd ⟨hu.symm, hn.symm⟩ (hnone b hb')
        · exact absurd ⟨hu, hn⟩ (hnone a ha')
        · exact hI a ha' b hb' hu hn
  · rintro pk newSymbol i hfind ⟨q, hq, hne, hu, hn⟩
    rw [updateInvestmentSymbol, hfind]
    dsimp only
    rw [if_pos (List.any_eq_true.mpr ⟨q, hq, by simp [hne, hu, hn]⟩)]
  · intro pk newSymbol db' hok
    cases hfind : db.investments.find? (fun q => q.id == pk) with
    | none => rw [updateInvestmentSymbol, hfind] at hok; cases hok
    | some i =>
      rw [updateInvestmentSymbol, hfind] at hok
      dsimp only at hok
      by_cases hc : (db.investments.any fun q =>
          q.id != pk && q.portfolio == i.portfolio && q.symbol == newSymbol) = true
      · rw [if_pos hc] at hok; cases hok
      · rw [if_neg hc] at hok
        cases hok
        have hpid : i.id = pk := by
          have := List.find?_some hfind
          simpa using this
        have hpm : i ∈ db.investments := List.mem_of_find?_eq_some hfind
        have hnone : ∀ q ∈ db.investments,
            q.id ≠ pk → q.portfolio = i.portfolio → q.symbol ≠ newSymbol := by
          intro q hq h1 h2 h3
          exact hc (List.any_eq_true.mpr ⟨q, hq, by simp [h1, h2, h3]⟩)
        intro a' ha' b' hb' hu hn
        obtain ⟨a, ha, rfl⟩ := List.mem_map.mp ha'
        obtain ⟨b, hb, rfl⟩ := List.mem_map.mp hb'
        by_cases ca : (a.id == pk) = true <;> by_cases cb : (b.id == pk) = true
        · rw [if_pos ca, if_pos cb] at hu hn ⊢
          dsimp only at hu hn ⊢
          rw [beq_iff_eq.mp ca, beq_iff_eq.mp cb]
        · have haq : a = i := row_eq_of_id_eq Investment.id hIid ha hpm
            (by rw [beq_iff_eq.mp ca, hpid])
          rw [if_pos ca, if_neg cb] at hu hn ⊢
          dsimp only at hu hn ⊢
          have cb' : b.id ≠ pk := fun h => cb (beq_iff_eq.mpr h)
          exact absurd hn.symm (hnone b hb cb' (by rw [← hu, haq]))
        · have hbq : b = i := row_eq_of_id_eq Investment.id hIid hb hpm
            (by rw [beq_iff_eq.mp cb, hpid])
          rw [if_neg ca, if_pos cb] at hu hn ⊢
          dsimp only at hu hn ⊢
          have ca' : a.id ≠ pk := fun h => ca (beq_iff_eq.mpr h)
          exact absurd hn (hnone a ha ca' (by rw [hu, hbq]))
        · rw [if_neg ca, if_neg cb] at hu hn ⊢
          exact hI a ha b hb hu hn

/-- C2, witness: inserting a second portfolio named Main for user 1 is
rejected by unique_user_portfolio_name. -/
theorem c2_uniqueness_constraints_witness :
    insertPortfolio
      ⟨[], [⟨1, 1, "Main", "", true, 0⟩], [⟨1, 1, "AAPL", 1, 1, 0⟩], []⟩
      ⟨2, 1, "Main", "", true, 0⟩ = .error "unique_user_portfolio_name" :=
  ((c2_uniqueness_constraints
      ⟨[], [⟨1, 1, "Main", "", true, 0⟩], [⟨1, 1, "AAPL", 1, 1, 0⟩], []⟩
      (by unfold uniqueUserPortfolioName; decide)
      (by unfold uniquePortfolioSymbol; decide) (by decide) (by decide)).1
    ⟨2, 1, "Main", "", true, 0⟩).1
    ⟨⟨1, 1, "Main", "", true, 0⟩, by decide, rfl, rfl⟩

/-- C3: deleting a portfolio keeps exactly the portfolios with another id,
the investments of other portfolios and the transactions whose investment
lies outside the deleted portfolio, and touches no user; deleting a user
cascades the same way through the user's portfolios. -/
theorem c3_cascade_delete (db : DB) (pid uid : Id) :
    ((deletePortfolioCascade db pid).users = db.users) ∧
    (∀ p : Portfolio, p ∈ (deletePortfolioCascade db pid).portfolios ↔
      p ∈ db.portfolios ∧ p.id ≠ pid) ∧
    (∀ i : Investment, i ∈ (deletePortfolioCascade db pid).investments ↔
      i ∈ db.investments ∧ i.portfolio ≠ pid) ∧
    (∀ t : Transaction, t ∈ (deletePortfolioCascade db pid).transactions ↔
      t ∈ db.transactions ∧
        ¬ ∃ i ∈ db.investments, i.id = t.investment ∧ i.portfolio = pid) ∧
    (∀ w : User, w ∈ (deleteUserCascade db uid).users ↔
      w ∈ db.users ∧ w.id ≠ uid) ∧
    (∀ p : Portfolio, p ∈ (deleteUserCascade db uid).portfolios ↔
      p ∈ db.portfolios ∧ p.user ≠ uid) ∧
    (∀ i : Investment, i ∈ (deleteUserCascade db uid).investments ↔
      i ∈ db.investments ∧
        ¬ ∃ p ∈ db.portfolios, p.id = i.portfolio ∧ p.user = uid) ∧
    (∀ t : Transaction, t ∈ (deleteUserCascade db uid).transactions ↔
      t ∈ db.transactions ∧
        ¬ ∃ i ∈ db.investments, i.id = t.investment ∧
          ∃ p ∈ db.portfolios, p.id = i.portfolio ∧ p.user = uid) := by
  refine ⟨rfl, ?_, ?_, ?_, ?_, ?_, ?_, ?_⟩ <;> intro x <;>
    simp [deletePortfolioCascade, deleteUserCascade, List.mem_filter,
      List.any_eq_true, and_assoc]

/-- Rounding to the nearest integer is monotone. -/
theorem round_le_round {x y : ℚ} (h : x ≤ y) : (round x : ℤ) ≤ round y := by
  rw [round_eq, round_eq]
  exact Int.floor_mono (by linarith)

/-- round2 does not move a value above an upper bound that is a multiple of
one hundredth. -/
theorem round2_le {q b : ℚ} (n : ℤ) (hb : b = (n : ℚ) / 100) (h : q ≤ b) :
    round2 q ≤ b := by
  subst hb
  unfold round2
  have h1 : (round (q * 100) : ℤ) ≤ round ((n : ℚ)) :=
    round_le_round (by linarith)
  rw [round_intCast] at h1
  have h2 : ((round (q * 100) : ℤ) : ℚ) ≤ (n : ℚ) := by exact_mod_cast h1
  linarith

/-- round2 does not move a value below a lower bound that is a multiple of
one hundredth. -/
theorem le_round2 {q a : ℚ} (n : ℤ) (ha : a = (n : ℚ) / 100) (h : a ≤ q) :
    a ≤ round2 q := by
  subst ha
  unfold round2
  have h1 : (round ((n : ℚ)) : ℤ) ≤ round (q * 100) :=
    round_le_round (by linarith)
  rw [round_intCast] at h1
  have h2 : (n : ℚ) ≤ ((round (q * 100) : ℤ) : ℚ) := by exact_mod_cast h1
  linarith

/-- A rounded uniform draw stays inside its interval when the endpoints are
multiples of one hundredth. -/
theorem round2_uniform_mem (lo hi : ℚ) (nlo nhi : ℤ) (hlo : lo = (nlo : ℚ) / 100)
    (hhi : hi = (nhi : ℚ) / 100) (hle : lo ≤ hi) {r : ℚ} (h0 : 0 ≤ r)
    (h1 : r ≤ 1) :
    lo ≤ round2 (uniform lo hi r) ∧ round2 (uniform lo hi r) ≤ hi := by
  have hd : (0 : ℚ) ≤ hi - lo := by linarith
  have hu1 : lo ≤ uniform lo hi r := by
    unfold uniform
    nlinarith [mul_nonneg hd h0]
  have hu2 : uniform lo hi r ≤ hi := by
    unfold uniform
    nlinarith [mul_le_mul_of_nonneg_left h1 hd]
  exact ⟨le_round2 nlo hlo hu1, round2_le nhi hhi hu2⟩

/-- Mock data generated from unit samples satisfies every coded interval. -/
theorem generate_mock_price_data_bounds (r : Nat → ℚ)
    (hr : ∀ j, 0 ≤ r j ∧ r j ≤ 1) :
    MockDataInBounds (generate_mock_price_data r) := by
  have B : ∀ (lo hi : ℚ) (nlo nhi : ℤ), lo = (nlo : ℚ) / 100 →
      hi = (nhi : ℚ) / 100 → lo ≤ hi →
      ∀ j, lo ≤ round2 (uniform lo hi (r j)) ∧ round2 (uniform lo hi (r j)) ≤ hi :=
    fun lo hi nlo nhi e1 e2 e3 j =>
      round2_uniform_mem lo hi nlo nhi e1 e2 e3 (hr j).1 (hr j).2
  unfold MockDataInBounds generate_mock_price_data
  exact ⟨B 45000 55000 4500000 5500000 (by norm_num) (by norm_num) (by norm_num) 0,
    B (-500) 500 (-50000) 50000 (by norm_num) (by norm_num) (by norm_num) 1,
    B (-2) 2 (-200) 200 (by norm_num) (by norm_num) (by norm_num) 2,
    _, _, _, rfl,
    ⟨B 150 200 15000 20000 (by norm_num) (by norm_num) (by norm_num) 3,
     B (-5) 5 (-500) 500 (by norm_num) (by norm_num) (by norm_num) 4,
     B (-3) 3 (-300) 300 (by norm_num) (by norm_num) (by norm_num) 5,
     B 15000 20000 1500000 2000000 (by norm_num) (by norm_num) (by norm_num) 6,
     rfl⟩,
    ⟨B 300 400 30000 40000 (by norm_num) (by norm_num) (by norm_num) 7,
     B (-8) 8 (-800) 800 (by norm_num) (by norm_num) (by norm_num) 8,
     B (-2) 2 (-200) 200 (by norm_num) (by norm_num) (by norm_num) 9,
     B 15000 20000 1500000 2000000 (by norm_num) (by norm_num) (by norm_num) 10,
     rfl⟩,
    ⟨B 120 150 12000 15000 (by norm_num) (by norm_num) (by norm_num) 11,
     B (-3) 3 (-300) 300 (by norm_num) (by norm_num) (by norm_num) 12,
     B (-2) 2 (-200) 200 (by norm_num) (by norm_num) (by norm_num) 13,
     B 9000 11250 900000 1125000 (by norm_num) (by norm_num) (by norm_num) 14,
     rfl⟩⟩

/-- C7: over any number of iterations the price-update loop alternates one
price_update emission with a wait of exactly five seconds, and every numeric
field of every emitted mock payload lies inside the interval coded for it. -/
theorem c7_price_update_loop (r : Nat → Nat → ℚ) (k : Nat)
    (hr : ∀ i j, 0 ≤ r i j ∧ r i j ≤ 1) :
    EmitThenSleep5 (price_update_loop r k) ∧
    ∀ d, LoopEvent.emit d ∈ price_update_loop r k → MockDataInBounds d := by
  induction k generalizing r with
  | zero =>
      refine ⟨.nil, ?_⟩
      intro d h
      simp [price_update_loop] at h
  | succ k ih =>
      obtain ⟨h1, h2⟩ := ih (fun i => r (i + 1)) (fun i j => hr (i + 1) j)
      refine ⟨.cons _ _ h1, ?_⟩
      intro d hd
      rw [price_update_loop] at hd
      rcases List.mem_cons.mp hd with he | hd'
      · cases he
        exact generate_mock_price_data_bounds (r 0) (fun j => hr 0 j)
      · rcases List.mem_cons.mp hd' with hs | hd''
        · cases hs
        · exact h2 d hd''

/-- C7, witness: one iteration driven by the constant sample one half. -/
theorem c7_price_update_loop_witness :
    EmitThenSleep5 (price_update_loop (fun _ _ => (1 : ℚ) / 2) 1) :=
  (c7_price_update_loop (fun _ _ => (1 : ℚ) / 2) 1
    (fun i j => ⟨by norm_num, by norm_num⟩)).1

end FinFlow
